import Mathlib

/-!
Verification of the adaptative (HDF5) loader of `ivadomed`
(file `ivadomed/loader/adaptative.py`).

Shallow embedding conventions:
* Python dicts keyed by contrast names become Lean functions `String → _`
  (or `String → Option _` when membership of the key matters).
* Python floats (contrast-balance thresholds) are modelled as exact
  rationals `ℚ`; the comparisons in the source are plain `/` and `>`.
* Randomness (`np.random.choice`, `np.random.randint`) is made explicit:
  the drawn values become arguments, together with a decidable predicate
  (or a list) describing the support of the distribution they are drawn
  from.
* Out-of-bounds numpy writes (`IndexError`) are modelled with `Option`.
-/

/-- A candidate subject as seen by `BIDStoHDF5.process_subject`:
its filename-derived id, its contrast (the `suffix` column of the BIDS
dataframe), and the combined outcome of the acceptance filters that run
after the balance check (existing target file, required roi file,
MRI-parameter completeness) — those filters only read external dataframe
state, so they are a per-subject boolean here. -/
structure SubjectRec where
  name : String
  contrast : String
  passesFilters : Bool
deriving DecidableEq, Repr

/-- The converter state threaded through `process_subject`: the running
per-contrast counter `c` and the accumulated `filename_pairs` list
(we keep the whole subject record per accepted pair). -/
structure ConvState where
  counts : String → Nat
  pairs : List SubjectRec

/-- `BIDStoHDF5.is_contrast_over_threshold` (adaptative.py lines 308-311):

    if contrast in (contrast_balance.keys()):
        c[contrast] = c[contrast] + 1
        return c[contrast] / tot[contrast] > contrast_balance[contrast]

The counter is incremented first, then the fraction is compared to the
threshold.  When the contrast is not balanced the function falls through
and returns Python `None`; we return `none`. -/
def is_contrast_over_threshold (counts : String → Nat) (tot : String → ℚ)
    (contrast : String) (balance : String → Option ℚ) :
    (String → Nat) × Option Bool :=
  match balance contrast with
  | some t =>
      let cnt := counts contrast + 1
      (fun x => if x = contrast then cnt else counts x,
       some (decide ((cnt : ℚ) / tot contrast > t)))
  | none => (counts, none)

/-- `BIDStoHDF5.process_subject` (lines 276-306): run the balance check;
Python tests `if (not is_over_thresh)`, so both `None` (unbalanced
contrast) and `False` proceed; then the target/roi/mri filters decide
whether `(subj_id, ...)` is appended to `filename_pairs`. -/
def process_subject (balance : String → Option ℚ) (tot : String → ℚ)
    (st : ConvState) (s : SubjectRec) : ConvState :=
  let res := is_contrast_over_threshold st.counts tot s.contrast balance
  let isOver := res.2.getD false
  if isOver then { counts := res.1, pairs := st.pairs }
  else if s.passesFilters then { counts := res.1, pairs := st.pairs ++ [s] }
  else { counts := res.1, pairs := st.pairs }

/-- The subject loop of `BIDStoHDF5.__init__` (lines 240 and 257-259):
counters start at `0` for every contrast, `filename_pairs` starts empty,
and `process_subject` is folded over the sorted subject list. -/
def runConverter (balance : String → Option ℚ) (tot : String → ℚ)
    (subjects : List SubjectRec) : ConvState :=
  subjects.foldl (process_subject balance tot) { counts := fun _ => 0, pairs := [] }

/-- Number of accepted subjects (entries of `filename_pairs`) of a given
contrast. -/
def acceptedCount (st : ConvState) (c0 : String) : Nat :=
  (st.pairs.filter (fun s => decide (s.contrast = c0))).length

/-- Number of candidate subjects of a given contrast in the processed
list — this is what `tot[contrast]` is computed from in `__init__`
(line 236: the count of rows of `df_subjects` whose suffix matches). -/
def countCandidates (subjects : List SubjectRec) (c0 : String) : Nat :=
  (subjects.filter (fun s => decide (s.contrast = c0))).length

/-- Number of candidate subjects of a given contrast that pass all the
post-balance acceptance filters ("complete" subjects). -/
def countCompleteCandidates (subjects : List SubjectRec) (c0 : String) : Nat :=
  (subjects.filter (fun s => decide (s.contrast = c0) && s.passesFilters)).length

/-- Concrete balance configuration used in witnesses: threshold 1/2 for
contrast T1. -/
def balHalfT1 : String → Option ℚ := fun s => if s = "T1" then some ((1 : ℚ)/2) else none

/-- Concrete totals map: two T1 candidates. -/
def totTwoT1 : String → ℚ := fun s => if s = "T1" then 2 else 0

/-- Two complete T1 subjects. -/
def subsTwoT1 : List SubjectRec :=
  [{ name := "sub-01", contrast := "T1", passesFilters := true },
   { name := "sub-02", contrast := "T1", passesFilters := true }]

/-- T1 subjects where the first is rejected by the post-balance filters
and the second is complete. -/
def subsRejectedFirst : List SubjectRec :=
  [{ name := "sub-01", contrast := "T1", passesFilters := false },
   { name := "sub-02", contrast := "T1", passesFilters := true }]

/-- A cell of the index table built by `Dataframe.create_df`: either a
string value (the loader writes container path strings, and the missing
sentinel is the string "None", line 149) or the pandas null marker
`np.nan`. -/
inductive Cell where
  | str : String → Cell
  | nan : Cell
deriving DecidableEq, Repr

/-- The missing sentinel of the index table. -/
def missingSentinel : Cell := Cell.str "None"

/-- Whether a cell is the pandas null marker. -/
def Cell.isNan : Cell → Bool
  | .nan => true
  | _ => false

/-- `df[contrasts].replace(to_replace='None', value=np.nan)` (line 175)
restricted to the listed column positions, walking a row together with
its column index. -/
def replaceSentinelFrom (listed : List Nat) : Nat → List Cell → List Cell
  | _, [] => []
  | i, c :: cs =>
      (if i ∈ listed ∧ c = missingSentinel then Cell.nan else c) ::
        replaceSentinelFrom listed (i + 1) cs

/-- Sentinel replacement over a whole row (columns are positional). -/
def replaceSentinel (listed : List Nat) (row : List Cell) : List Cell :=
  replaceSentinelFrom listed 0 row

/-- Whether a row holds the missing sentinel in one of the listed
columns, starting from column index `i`. -/
def hasSentinelFrom (listed : List Nat) : Nat → List Cell → Bool
  | _, [] => false
  | i, c :: cs =>
      (decide (i ∈ listed) && decide (c = missingSentinel)) ||
        hasSentinelFrom listed (i + 1) cs

/-- Whether a row holds the missing sentinel in one of the listed columns. -/
def hasSentinelInListed (listed : List Nat) (row : List Cell) : Bool :=
  hasSentinelFrom listed 0 row

/-- `Dataframe.clean` (lines 168-177): replace the sentinel by a null in
the listed columns, then `self.df.dropna()` — and pandas `dropna()` with
no subset drops a row holding a null in ANY column, not only the listed
ones. -/
def Dataframe.clean (listed : List Nat) (df : List (List Cell)) : List (List Cell) :=
  (df.map (replaceSentinel listed)).filter (fun r => !(r.any Cell.isNan))

/-- Number of rows holding the missing sentinel in a listed column
(the `m` of the claim). -/
def sentinelRowCount (listed : List Nat) (df : List (List Cell)) : Nat :=
  (df.filter (hasSentinelInListed listed)).length

/-- Counterexample table: one row, column 0 listed, no sentinel anywhere,
but a pre-existing null in the unlisted column 1 (e.g. from a reloaded
csv with an empty field). -/
def dfC2 : List (List Cell) := [[Cell.str "a", Cell.nan]]

/-- Witness table: two rows over columns {0, 1}, column 0 listed, the
first row missing its listed contrast. -/
def dfCleanW : List (List Cell) :=
  [[missingSentinel, Cell.str "a"], [Cell.str "b", Cell.str "c"]]

/-- Support of `np.random.randint(2)` (adaptative.py line 705): an index
in {0, 1}, independently of how many contrasts are configured. -/
def npRandintTwoSupport : List Nat := [0, 1]

/-- Support of `np.random.choice(2, n, p=[p, 1-p])` (line 701): a 0/1
vector of length `n` in which value 0 ("missing") has probability `p`,
so 0 is impossible at `p = 0` and certain at `p = 1`. -/
def validChoiceDraw (p : ℚ) (n : Nat) (draw : List Nat) : Prop :=
  draw.length = n ∧ (∀ x ∈ draw, x = 0 ∨ x = 1) ∧
    (p = 0 → ∀ x ∈ draw, x = 1) ∧ (p = 1 → ∀ x ∈ draw, x = 0)

/-- `np.zeros(n)` (line 704). -/
def npZeros (n : Nat) : List Nat := List.replicate n 0

/-- numpy element assignment `a[idx] = v` for a nonnegative index:
IndexError (index out of bounds) is modelled as `none`. -/
def npSetItem (a : List Nat) (idx : Nat) (v : Nat) : Option (List Nat) :=
  if idx < a.length then some (a.set idx v) else none

/-- One row of `HDF5Dataset.update` with strategy "Missing" (lines
700-706): `missing_mod` is the Bernoulli draw; if it has any nonzero
entry it is stored as is; otherwise a zero mask is created and the entry
at the index drawn by `np.random.randint(2)` is set to 1. -/
def hemisUpdateRow (n : Nat) (draw : List Nat) (fallbackIdx : Nat) : Option (List Nat) :=
  if draw.any (fun x => decide (x ≠ 0)) then some draw
  else npSetItem (npZeros n) fallbackIdx 1

/-- A cell of the access-layer dataframe: a container path string, or the
array loaded from the container — represented by the pair (path string,
slice selector) it was read with. -/
inductive HCell where
  | pathStr : String → HCell
  | arr : String × List Nat → HCell
deriving DecidableEq, Repr

/-- One row of the access-layer dataframe: its `Slices` column and its
per-contrast cells (an association list keyed by column name). -/
structure ARow where
  slices : List Nat
  cells : List (String × HCell)
deriving DecidableEq, Repr

/-- Access-layer state touched by `load_into_ram`: the keys of
`self.status`, the contrasts currently marked resident, and the
dataframe rows. -/
structure AccessState where
  known : List String
  resident : List String
  rows : List ARow
deriving DecidableEq, Repr

/-- `self.dataframe.at[sub, ct]` read. -/
def getCell (r : ARow) (ct : String) : Option HCell := r.cells.lookup ct

/-- `self.dataframe.at[sub, ct] = v` write. -/
def setCell (r : ARow) (ct : String) (v : HCell) : ARow :=
  { r with cells := r.cells.map (fun p => if p.1 = ct then (ct, v) else p) }

/-- `hdf5_file[path][np.array(slices)]` — reading the container dataset
named by a path cell at a slice selector (only ever applied to path
cells in this development). -/
def h5Read (c : HCell) (slices : List Nat) : HCell :=
  match c with
  | .pathStr p => .arr (p, slices)
  | x => x

/-- Loop body of `HDF5Dataset.load_into_ram` (lines 561-582) for one
contrast `ct`: unknown keys are skipped with a warning; an
already-resident contrast only logs; otherwise each row's cell is
replaced by the array read at the row's slice selector — but ONLY when
`self.filter_slices` is truthy (the line-578 guard); in every non-skip
case `self.status[ct]` is set to True at the end. -/
def loadContrast (filterSlices : Bool) (st : AccessState) (ct : String) : AccessState :=
  if ct ∉ st.known then st
  else
    let rows' :=
      if ct ∈ st.resident then st.rows
      else if filterSlices then
        st.rows.map (fun r =>
          match getCell r ct with
          | some c => setCell r ct (h5Read c r.slices)
          | none => r)
      else st.rows
    { known := st.known, rows := rows',
      resident := if ct ∈ st.resident then st.resident else st.resident ++ [ct] }

/-- `HDF5Dataset.load_into_ram`: fold of the per-contrast body over the
requested contrast list. -/
def load_into_ram (filterSlices : Bool) (st : AccessState) (contrastLst : List String) :
    AccessState :=
  contrastLst.foldl (loadContrast filterSlices) st

/-- Counterexample state for RAM promotion without a slice filter: one
known, non-resident contrast whose single row holds a path cell. -/
def rowC4 : ARow :=
  { slices := [0], cells := [("T1", HCell.pathStr "sub-01/inputs/T1")] }

/-- The access state holding `rowC4`. -/
def stC4 : AccessState := { known := ["T1"], resident := [], rows := [rowC4] }

/-- Witness state for RAM promotion with a slice filter configured. -/
def stC4w : AccessState :=
  { known := ["T1"], resident := [],
    rows := [{ slices := [0, 2], cells := [("T1", HCell.pathStr "sub-02/inputs/T1")] }] }

/-- The contrast-list attribute update of `BIDStoHDF5.create_subgrp_metadata`
(lines 362-369): if the namespace's 'contrast' attribute exists, the new
token is appended to a copy of it — with no membership check — else the
attribute is created as the singleton. -/
def create_subgrp_metadata (attr : Option (List String)) (contrast : String) : List String :=
  match attr with
  | some a => a ++ [contrast]
  | none => [contrast]

/-- `BIDStoHDF5.add_grp_contrast` (lines 381-389): the same unconditional
append on the group-level 'contrast' attribute. -/
def add_grp_contrast (attr : Option (List String)) (contrast : String) : List String :=
  match attr with
  | some a => a ++ [contrast]
  | none => [contrast]

/-- File-open modes used on the container path. -/
inductive H5Mode where
  | read : H5Mode
  | write : H5Mode
deriving DecidableEq, Repr

/-- Container-acquisition step of `HDF5Dataset.__init__` (lines 516-536):
`if not Path(model_params[PATH_HDF5]).exists()` the converter is built
(`BIDStoHDF5.__init__` opens the path with mode "w", line 265, and writes
its output, here opaque); otherwise the existing path is reused and later
opened read-only (line 539).  Returns the file content afterwards,
whether the converter ran, and the mode the container was opened with. -/
def hdf5_dataset_get_container (fsContent : Option (List String)) (convOutput : List String) :
    Option (List String) × Bool × H5Mode :=
  match fsContent with
  | none => (some convOutput, true, H5Mode.write)
  | some c => (some c, false, H5Mode.read)

/-- Write-time content of the caller's gt (resp. roi) volume accumulator
across the slice loop of `BIDStoHDF5._load_filenames` (line 414) with
helper `_slice_seg_pair` (lines 348-358): per slice, a nonempty transform
output is appended to the shared list; an empty output executes
`gt_volume = []`, which rebinds only the helper's local name and leaves
the caller's list as it was, so the caller's accumulator simply does not
grow on that slice. -/
def accumulateVolume : List (Option Nat) → List Nat
  | [] => []
  | none :: rest => accumulateVolume rest
  | some g :: rest => g :: accumulateVolume rest

/-- Dataset writes of `_load_filenames` (lines 436-460): when the input
accumulator is empty the subject is skipped (`continue`, line 438);
otherwise the `inputs/<c>`, `gt/<c>` and `roi/<c>` datasets are all
created unconditionally — an empty gt/roi accumulator yields a
zero-length dataset, never an absent one. -/
def writeSubjectDatasets (contrast : String) (inputVol gtVol roiVol : List Nat)
    (grp : List (String × List Nat)) : List (String × List Nat) :=
  if inputVol.length < 1 then grp
  else grp ++ [("inputs/" ++ contrast, inputVol),
               ("gt/" ++ contrast, gtVol),
               ("roi/" ++ contrast, roiVol)]

/-- Concatenation of the images of a list-valued function (the shape of
the nested export loops). -/
def flatMapL (f : α → List β) : List α → List β
  | [] => []
  | a :: as => f a ++ flatMapL f as

/-- `filename.split("/")[-1]`. -/
def basename (s : String) : String := ((s.splitOn ("/")).getLast?).getD s

/-- One subject group of the container, as read by the exporter: the
`inputs` contrast tokens, the gt entries (contrast token with its
`gt_filenames` attribute), and the roi entries (contrast token, stored
dataset, head of its `roi_filename` attribute). -/
structure SubjGroup where
  inputContrasts : List String
  gtEntries : List (String × List String)
  roiEntries : List (String × List Nat × String)
deriving DecidableEq, Repr

/-- `path_dir + '/' + sub + '/anat/'` (line 727). -/
def subjectDir (pathDir sub : String) : String :=
  pathDir ++ "/" ++ sub ++ "/anat/"

/-- `path_dir + '/derivatives/labels/' + sub + '/anat/'` (line 728). -/
def labelDir (pathDir sub : String) : String :=
  pathDir ++ "/derivatives/labels/" ++ sub ++ "/anat/"

/-- Files written for one subject group by `HDF5ToBIDS` (lines 741-769):
one input volume per contrast token, one label file per gt filename, and
one roi file per roi contrast whose dataset is nonempty
(`np.any(roi_data.shape)` is falsy exactly for a zero-length dataset). -/
def exportSubject (pathDir sub : String) (g : SubjGroup) : List String :=
  (g.inputContrasts.map (fun ct => subjectDir pathDir sub ++ sub ++ "_" ++ ct ++ ".nii.gz"))
    ++ flatMapL (fun e => e.2.map (fun fn => labelDir pathDir sub ++ basename fn)) g.gtEntries
    ++ flatMapL (fun e =>
        if e.2.1.isEmpty then [] else [labelDir pathDir sub ++ basename e.2.2]) g.roiEntries

/-- `HDF5ToBIDS` (lines 711-769): raises FileNotFoundError before the
subject loop when the output root does not exist; inside the loop a
failing container lookup (`hdf5_file[sub]`) is caught and `continue`d,
so the remaining subjects are still exported.  The result is the list of
files written. -/
def HDF5ToBIDS (container : List (String × SubjGroup)) (subjects : List String)
    (pathDir : String) (dirExists : Bool) : Except String (List String) :=
  if ¬ dirExists then
    Except.error ("Directory " ++ pathDir ++ " doesn't exist. Stopping process.")
  else
    Except.ok (flatMapL (fun sub =>
      match container.lookup sub with
      | none => []
      | some g => exportSubject pathDir sub g) subjects)

/-- A concrete subject group used in witnesses. -/
def grpW : SubjGroup :=
  { inputContrasts := ["T1"],
    gtEntries := [("T1", ["sub-01_T1_lesion.nii.gz"])],
    roiEntries := [] }

/-- A concrete container holding only `sub-01`. -/
def containerW : List (String × SubjGroup) := [("sub-01", grpW)]

theorem acceptedCount_mk (c : String → Nat) (p : List SubjectRec) (c0 : String) :
    acceptedCount { counts := c, pairs := p } c0 =
      (p.filter (fun s => decide (s.contrast = c0))).length := rfl

/-- Case analysis of one `process_subject` step, as seen from a balanced
contrast `c0`: either the accepted count is unchanged and the counter
does not decrease, or the accepted count and the counter both increase
by one and the new counter value passed the threshold comparison. -/
theorem process_subject_cases (balance : String → Option ℚ) (tot : String → ℚ)
    (st : ConvState) (s : SubjectRec) (c0 : String) (t : ℚ)
    (hb : balance c0 = some t) :
    (acceptedCount (process_subject balance tot st s) c0 = acceptedCount st c0 ∧
       st.counts c0 ≤ (process_subject balance tot st s).counts c0) ∨
    (acceptedCount (process_subject balance tot st s) c0 = acceptedCount st c0 + 1 ∧
       (process_subject balance tot st s).counts c0 = st.counts c0 + 1 ∧
       ((st.counts c0 + 1 : ℕ) : ℚ) / tot c0 ≤ t) := by
  rcases hcon : balance s.contrast with _ | t'
  · -- unbalanced contrast: counters untouched, and s.contrast ≠ c0
    have hne : ¬ s.contrast = c0 := by
      intro he; rw [he, hb] at hcon; exact Option.noConfusion hcon
    left
    by_cases hp : s.passesFilters <;>
      simp [process_subject, is_contrast_over_threshold, hcon, hp,
        acceptedCount, List.filter_append, hne]
  · by_cases hc0 : s.contrast = c0
    · have ht' : t' = t := by rw [hc0, hb] at hcon; injection hcon with h; exact h.symm
      have hc0' : c0 = s.contrast := hc0.symm
      by_cases hover : t' < ((st.counts s.contrast : ℚ) + 1) / tot s.contrast
      · -- over threshold: nothing appended, counter incremented
        left
        constructor
        · simp [process_subject, is_contrast_over_threshold, hcon, hover, acceptedCount]
        · simp [process_subject, is_contrast_over_threshold, hcon, hover, hc0']
      · by_cases hp : s.passesFilters
        · -- accepted: appended, counter incremented, comparison at or under t
          right
          refine ⟨?_, ?_, ?_⟩
          · have hpairs : (process_subject balance tot st s).pairs = st.pairs ++ [s] := by
              simp [process_subject, is_contrast_over_threshold, hcon, hover, hp]
            simp [acceptedCount, hpairs, List.filter_append, hc0]
          · simp [process_subject, is_contrast_over_threshold, hcon, hover, hp, hc0']
          · rw [← hc0, ← ht']
            push_cast
            exact not_lt.mp hover
        · -- filtered out after the balance check: counter still incremented
          left
          constructor
          · simp [process_subject, is_contrast_over_threshold, hcon, hover, hp, acceptedCount]
          · simp [process_subject, is_contrast_over_threshold, hcon, hover, hp, hc0']
    · -- balanced but a different contrast: counter at c0 unchanged
      left
      have hc0' : ¬ c0 = s.contrast := fun h => hc0 h.symm
      by_cases hover : t' < ((st.counts s.contrast : ℚ) + 1) / tot s.contrast <;>
        by_cases hp : s.passesFilters <;>
          simp [process_subject, is_contrast_over_threshold, hcon, hover, hp,
            acceptedCount, List.filter_append, hc0, hc0']

/-- Fold invariant for the balance counter: the accepted count of a
balanced contrast never exceeds its running counter, nor the floor of
threshold × total. -/
theorem balance_fold_invariant (balance : String → Option ℚ) (tot : String → ℚ)
    (c0 : String) (t : ℚ) (hb : balance c0 = some t) (htot : 0 < tot c0) :
    ∀ (subjects : List SubjectRec) (st : ConvState),
      acceptedCount st c0 ≤ st.counts c0 →
      acceptedCount st c0 ≤ ⌊t * tot c0⌋₊ →
      acceptedCount (subjects.foldl (process_subject balance tot) st) c0 ≤ ⌊t * tot c0⌋₊ := by
  intro subjects
  induction subjects with
  | nil => intro st _ h2; simpa using h2
  | cons s rest ih =>
      intro st h1 h2
      simp only [List.foldl_cons]
      rcases process_subject_cases balance tot st s c0 t hb with
        ⟨hacc, hcnt⟩ | ⟨hacc, hcnt, hcompare⟩
      · exact ih _ (hacc ▸ le_trans h1 hcnt) (hacc ▸ h2)
      · have hle : ((st.counts c0 + 1 : ℕ) : ℚ) ≤ t * tot c0 :=
          (div_le_iff₀ htot).mp hcompare
        have hfloor : st.counts c0 + 1 ≤ ⌊t * tot c0⌋₊ := Nat.le_floor hle
        refine ih _ ?_ ?_
        · rw [hacc, hcnt]; exact Nat.add_le_add_right h1 1
        · rw [hacc]; exact le_trans (Nat.add_le_add_right h1 1) hfloor

/-- C1: for a configured threshold `t` on contrast `c0` with `tot c0`
total candidates of that contrast, the number of subjects of contrast
`c0` appended to `filename_pairs` never exceeds `⌈t * tot c0⌉₊`
(including `t = 0` and `t = 1`). -/
theorem contrast_balance_never_exceeds_ceil (balance : String → Option ℚ)
    (tot : String → ℚ) (subjects : List SubjectRec) (c0 : String) (t : ℚ)
    (hb : balance c0 = some t) (htot : 1 ≤ tot c0)
    (hcand : tot c0 = (countCandidates subjects c0 : ℚ)) :
    acceptedCount (runConverter balance tot subjects) c0 ≤ ⌈t * tot c0⌉₊ := by
  have h0 : 0 < tot c0 := lt_of_lt_of_le one_pos htot
  have hfloor := balance_fold_invariant balance tot c0 t hb h0 subjects
    { counts := fun _ => 0, pairs := [] } (by simp [acceptedCount]) (by simp [acceptedCount])
  exact le_trans hfloor (Nat.floor_le_ceil _)

theorem runConverter_rejectedFirst_pairs :
    (runConverter balHalfT1 totTwoT1 subsRejectedFirst).pairs = [] := by
  have hnover1 : ¬ ((1 : ℚ)/2 < (((0 : ℕ) : ℚ) + 1) / 2) := by norm_num
  have h1 : process_subject balHalfT1 totTwoT1 { counts := fun _ => 0, pairs := [] }
      { name := "sub-01", contrast := "T1", passesFilters := false } =
      { counts := fun x => if x = "T1" then 1 else 0, pairs := [] } := by
    simp only [process_subject, is_contrast_over_threshold, balHalfT1, totTwoT1]
    norm_num
  have h2 : ∀ st : ConvState, st.counts "T1" = 1 →
      (process_subject balHalfT1 totTwoT1 st
        { name := "sub-02", contrast := "T1", passesFilters := true }).pairs = st.pairs := by
    intro st hc
    simp only [process_subject, is_contrast_over_threshold, balHalfT1, totTwoT1]
    simp only [if_true, decide_eq_true_eq, Option.getD_some, String.reduceEq,
      reduceIte, Nat.cast_add, Nat.cast_one, one_div]
    rw [if_pos (show (2⁻¹ : ℚ) < ((st.counts "T1" : ℚ) + 1) / 2 by rw [hc]; norm_num)]
  show (List.foldl (process_subject balHalfT1 totTwoT1)
      { counts := fun _ => 0, pairs := [] } subsRejectedFirst).pairs = []
  rw [show subsRejectedFirst =
    [{ name := "sub-01", contrast := "T1", passesFilters := false },
     { name := "sub-02", contrast := "T1", passesFilters := true }] from rfl]
  simp only [List.foldl_cons, List.foldl_nil, h1]
  exact h2 _ (by simp)

/-- C9: `is_contrast_over_threshold` increments the running counter
before the target/roi/mri acceptance filters run, so filtered-out
subjects consume balance quota; consequently a run exists (threshold
1/2, two T1 candidates, the first rejected by the filters) where zero
T1 subjects reach the container even though one complete subject exists
and the threshold admits one. -/
theorem quota_consumed_before_filters :
    (∀ (balance : String → Option ℚ) (tot : String → ℚ) (st : ConvState)
        (s : SubjectRec) (t : ℚ), balance s.contrast = some t →
        (process_subject balance tot st s).counts s.contrast = st.counts s.contrast + 1)
    ∧ acceptedCount (runConverter balHalfT1 totTwoT1 subsRejectedFirst) "T1" = 0
    ∧ countCompleteCandidates subsRejectedFirst "T1" = 1
    ∧ ⌊((1 : ℚ)/2) * totTwoT1 "T1"⌋₊ = 1 := by
  refine ⟨?_, ?_, ?_, ?_⟩
  · intro balance tot st s t hb
    by_cases hover : t < ((st.counts s.contrast : ℚ) + 1) / tot s.contrast <;>
      by_cases hp : s.passesFilters <;>
        simp [process_subject, is_contrast_over_threshold, hb, hover, hp]
  · rw [acceptedCount, runConverter_rejectedFirst_pairs]; rfl
  · rfl
  · rw [show totTwoT1 "T1" = 2 from by simp [totTwoT1]]
    rw [show (1 : ℚ)/2 * 2 = 1 by norm_num]
    simp

theorem quota_consumed_before_filters_witness :
    (process_subject balHalfT1 totTwoT1 { counts := fun _ => 0, pairs := [] }
      { name := "sub-01", contrast := "T1", passesFilters := false }).counts "T1" =
      (({ counts := fun _ => 0, pairs := [] } : ConvState)).counts "T1" + 1 :=
  quota_consumed_before_filters.1 balHalfT1 totTwoT1
    { counts := fun _ => 0, pairs := [] }
    { name := "sub-01", contrast := "T1", passesFilters := false }
    ((1 : ℚ)/2) (by simp [balHalfT1])

theorem contrast_balance_never_exceeds_ceil_witness :
    acceptedCount (runConverter balHalfT1 totTwoT1 subsTwoT1) "T1" ≤
      ⌈((1 : ℚ)/2) * totTwoT1 "T1"⌉₊ :=
  contrast_balance_never_exceeds_ceil balHalfT1 totTwoT1 subsTwoT1 "T1" ((1 : ℚ)/2)
    (by simp [balHalfT1]) (by norm_num [totTwoT1])
    (by rw [show countCandidates subsTwoT1 "T1" = 2 from rfl]; norm_num [totTwoT1])

theorem replaceSentinelFrom_any_isNan (listed : List Nat) :
    ∀ (i : Nat) (row : List Cell), (∀ c ∈ row, c.isNan = false) →
      (replaceSentinelFrom listed i row).any Cell.isNan = hasSentinelFrom listed i row := by
  intro i row
  induction row generalizing i with
  | nil => intro _; rfl
  | cons c cs ih =>
      intro h
      have hc : c.isNan = false := h c (List.mem_cons_self c cs)
      have hcs : ∀ x ∈ cs, x.isNan = false := fun x hx => h x (List.mem_cons_of_mem c hx)
      by_cases hcond : i ∈ listed ∧ c = missingSentinel
      · simp [replaceSentinelFrom, hasSentinelFrom, hcond, Cell.isNan, hcond.1, hcond.2]
      · rw [Decidable.not_and_iff_or_not] at hcond
        rcases hcond with hnl | hns
        · simp [replaceSentinelFrom, hasSentinelFrom, hnl, hc, ih (i + 1) hcs]
        · simp [replaceSentinelFrom, hasSentinelFrom, hns, hc, ih (i + 1) hcs]

theorem hasSentinelFrom_replaceSentinelFrom (listed : List Nat) :
    ∀ (i : Nat) (row : List Cell),
      hasSentinelFrom listed i (replaceSentinelFrom listed i row) = false := by
  intro i row
  induction row generalizing i with
  | nil => rfl
  | cons c cs ih =>
      by_cases hcond : i ∈ listed ∧ c = missingSentinel
      · simp [replaceSentinelFrom, hasSentinelFrom, hcond, ih (i + 1),
          show Cell.nan ≠ missingSentinel from fun h => Cell.noConfusion h]
      · rw [Decidable.not_and_iff_or_not] at hcond
        rcases hcond with hnl | hns
        · simp [replaceSentinelFrom, hasSentinelFrom, hnl, ih (i + 1)]
        · simp [replaceSentinelFrom, hasSentinelFrom, hns, ih (i + 1)]

theorem clean_length_of_no_nan (listed : List Nat) :
    ∀ df : List (List Cell), (∀ row ∈ df, ∀ c ∈ row, c.isNan = false) →
      (Dataframe.clean listed df).length = df.length - sentinelRowCount listed df := by
  intro df
  induction df with
  | nil => intro _; rfl
  | cons row rest ih =>
      intro h
      have hrow : ∀ c ∈ row, c.isNan = false := h row (List.mem_cons_self row rest)
      have hrest : ∀ r ∈ rest, ∀ c ∈ r, c.isNan = false :=
        fun r hr => h r (List.mem_cons_of_mem row hr)
      have hkey : (replaceSentinel listed row).any Cell.isNan = hasSentinelInListed listed row :=
        replaceSentinelFrom_any_isNan listed 0 row hrow
      have hm : sentinelRowCount listed rest ≤ rest.length :=
        List.length_filter_le _ _
      by_cases hs : hasSentinelInListed listed row = true
      · have : Dataframe.clean listed (row :: rest) = Dataframe.clean listed rest := by
          simp only [Dataframe.clean, List.map_cons, List.filter_cons, hkey, hs]
          simp
        rw [this, ih hrest]
        simp only [sentinelRowCount, List.filter_cons, hs, List.length_cons]
        simp [Nat.succ_sub_succ]
      · have hs' : hasSentinelInListed listed row = false := by
          cases hval : hasSentinelInListed listed row
          · rfl
          · exact absurd hval hs
        have : Dataframe.clean listed (row :: rest) =
            replaceSentinel listed row :: Dataframe.clean listed rest := by
          simp only [Dataframe.clean, List.map_cons, List.filter_cons, hkey, hs']
          simp
        rw [this]
        simp only [List.length_cons, ih hrest, sentinelRowCount, List.filter_cons, hs']
        simp only [Bool.false_eq_true, if_false]
        rw [Nat.succ_sub (by simpa [sentinelRowCount] using hm)]

theorem replaceSentinelFrom_of_no_sentinel (listed : List Nat) :
    ∀ (i : Nat) (row : List Cell), hasSentinelFrom listed i row = false →
      replaceSentinelFrom listed i row = row := by
  intro i row
  induction row generalizing i with
  | nil => intro _; rfl
  | cons c cs ih =>
      intro h
      simp only [hasSentinelFrom, Bool.or_eq_false_iff] at h
      obtain ⟨h1, h2⟩ := h
      have hcond : ¬ (i ∈ listed ∧ c = missingSentinel) := by
        intro hc
        rw [decide_eq_true hc.1, decide_eq_true hc.2] at h1
        exact Bool.noConfusion h1
      simp only [replaceSentinelFrom, if_neg hcond]
      rw [ih (i + 1) h2]

theorem clean_eq_filter_of_no_nan (listed : List Nat) :
    ∀ df : List (List Cell), (∀ row ∈ df, ∀ c ∈ row, c.isNan = false) →
      Dataframe.clean listed df =
        df.filter (fun r => !(hasSentinelInListed listed r)) := by
  intro df
  induction df with
  | nil => intro _; rfl
  | cons row rest ih =>
      intro h
      have hrow : ∀ c ∈ row, c.isNan = false := h row (List.mem_cons_self row rest)
      have hrest : ∀ r ∈ rest, ∀ c ∈ r, c.isNan = false :=
        fun r hr => h r (List.mem_cons_of_mem row hr)
      have hkey : (replaceSentinel listed row).any Cell.isNan = hasSentinelInListed listed row :=
        replaceSentinelFrom_any_isNan listed 0 row hrow
      by_cases hs : hasSentinelInListed listed row = true
      · have hL : Dataframe.clean listed (row :: rest) = Dataframe.clean listed rest := by
          simp only [Dataframe.clean, List.map_cons, List.filter_cons, hkey, hs]
          simp
        have hR : (row :: rest).filter (fun r => !(hasSentinelInListed listed r)) =
            rest.filter (fun r => !(hasSentinelInListed listed r)) := by
          simp [List.filter_cons, hs]
        rw [hL, hR]
        exact ih hrest
      · have hs' : hasSentinelInListed listed row = false := by
          cases hval : hasSentinelInListed listed row
          · rfl
          · exact absurd hval hs
        have hid : replaceSentinel listed row = row :=
          replaceSentinelFrom_of_no_sentinel listed 0 row hs'
        have hL : Dataframe.clean listed (row :: rest) =
            replaceSentinel listed row :: Dataframe.clean listed rest := by
          simp only [Dataframe.clean, List.map_cons, List.filter_cons, hkey, hs']
          simp
        have hR : (row :: rest).filter (fun r => !(hasSentinelInListed listed r)) =
            row :: rest.filter (fun r => !(hasSentinelInListed listed r)) := by
          simp [List.filter_cons, hs']
        rw [hL, hid, hR, ih hrest]

/-- C2 counterexample: a table with one row, listed columns = {0}, no
missing sentinel anywhere, but a pre-existing null in the unlisted
column 1.  The sole row's listed-column cell is neither a null nor the
sentinel, yet `clean` drops the row — the post-clean count is 0, not
k − m = 1 − 0, so the row was dropped because of a value in a column
that was not listed. -/
theorem clean_unlisted_null_counterexample :
    Dataframe.clean [0] dfC2 = [] ∧ sentinelRowCount [0] dfC2 = 0 ∧ dfC2.length = 1 ∧
      (∀ row ∈ dfC2, row.getD 0 Cell.nan ≠ Cell.nan ∧ row.getD 0 Cell.nan ≠ missingSentinel) ∧
      (Dataframe.clean [0] dfC2).length ≠ dfC2.length - sentinelRowCount [0] dfC2 := by
  decide

/-- C2 (amended): when the table holds no pre-existing null in any
column, `clean(columns)` replaces the sentinel with a null only in the
listed columns and then drops exactly the m rows holding the sentinel in
a listed column: the post-clean count is k − m, no remaining row has a
null — or the sentinel — in any listed column, and the surviving table is
literally the sub-table of rows without a listed-column sentinel, kept
in order with every cell (in particular every column not listed)
untouched — so under the proviso no row is dropped because of a value in
a column not listed.  (Without the proviso a row can also be dropped
because of a null in a column not listed, since `dropna()` is applied to
all columns.) -/
theorem clean_amended (listed : List Nat) (df : List (List Cell))
    (h : ∀ row ∈ df, ∀ c ∈ row, c.isNan = false) :
    (Dataframe.clean listed df).length = df.length - sentinelRowCount listed df
    ∧ (∀ row ∈ Dataframe.clean listed df, row.any Cell.isNan = false)
    ∧ (∀ row ∈ Dataframe.clean listed df, hasSentinelInListed listed row = false)
    ∧ Dataframe.clean listed df =
        df.filter (fun r => !(hasSentinelInListed listed r)) := by
  refine ⟨clean_length_of_no_nan listed df h, ?_, ?_, clean_eq_filter_of_no_nan listed df h⟩
  · intro row hrow
    have := List.of_mem_filter hrow
    simpa using this
  · intro row hrow
    have hmem := List.mem_of_mem_filter hrow
    rcases List.mem_map.mp hmem with ⟨r, _, hr⟩
    rw [← hr]
    exact hasSentinelFrom_replaceSentinelFrom listed 0 r

theorem clean_amended_witness :
    ((Dataframe.clean [0] dfCleanW).length = dfCleanW.length - sentinelRowCount [0] dfCleanW
    ∧ (∀ row ∈ Dataframe.clean [0] dfCleanW, row.any Cell.isNan = false)
    ∧ (∀ row ∈ Dataframe.clean [0] dfCleanW, hasSentinelInListed [0] row = false)
    ∧ Dataframe.clean [0] dfCleanW =
        dfCleanW.filter (fun r => !(hasSentinelInListed [0] r))) :=
  clean_amended [0] dfCleanW (by decide)

/-- C3 (code bug): the "Missing" strategy's fallback picks the forced-on
index with `np.random.randint(2)` — uniform on {0, 1} whatever the number
of configured contrasts.  With three configured contrasts and the
all-zero draw (the certain draw at p = 1), the reachable masks only ever
re-enable contrast 0 or contrast 1: contrast 2 is never forced on, so the
choice is not uniform among all configured input contrasts as the spec
requires (and with one configured contrast the write can even go out of
bounds). -/
theorem hemis_forced_index_support :
    npRandintTwoSupport.map (hemisUpdateRow 3 (npZeros 3)) = [some [1, 0, 0], some [0, 1, 0]]
    ∧ validChoiceDraw 1 3 (npZeros 3) := by
  refine ⟨by decide, rfl, ?_, ?_, ?_⟩
  · intro x hx; left; simpa [npZeros] using hx
  · intro h10; exact absurd h10 (by norm_num)
  · intro _ x hx; simpa [npZeros] using hx

/-- C10: the forced-on index is drawn from {0, 1} regardless of how many
contrasts are configured; with exactly one configured contrast the
all-zero draw is in the Bernoulli support (it is the certain draw at
p = 1), index 1 is in the randint support, and the fallback write then
targets index 1 of a length-1 mask — an IndexError (`none`), so the mask
write is not always within bounds. -/
theorem hemis_fallback_out_of_bounds :
    validChoiceDraw 1 1 [0] ∧ 1 ∈ npRandintTwoSupport ∧ hemisUpdateRow 1 [0] 1 = none := by
  refine ⟨⟨rfl, ?_, ?_, ?_⟩, by decide, by decide⟩
  · intro x hx; left; simpa using hx
  · intro h10; exact absurd h10 (by norm_num)
  · intro _ x hx; simpa using hx

theorem lookup_map_set (cells : List (String × HCell)) (ct : String) (v : HCell)
    (c : HCell) (h : cells.lookup ct = some c) :
    (cells.map (fun p => if p.1 = ct then (ct, v) else p)).lookup ct = some v := by
  induction cells with
  | nil => simp at h
  | cons p ps ih =>
      obtain ⟨k, b⟩ := p
      by_cases hp : k = ct
      · have hfp : (if (k, b).1 = ct then (ct, v) else (k, b)) = (ct, v) := if_pos hp
        rw [List.map_cons, hfp]
        exact List.lookup_cons_self
      · have hbeq : (ct == k) = false :=
          beq_eq_false_iff_ne.mpr (fun he => hp he.symm)
        have h' : ps.lookup ct = some c := by
          rw [List.lookup_cons, hbeq] at h
          exact h
        have hfp : (if (k, b).1 = ct then (ct, v) else (k, b)) = (k, b) := if_neg hp
        rw [List.map_cons, hfp, List.lookup_cons, hbeq]
        exact ih h'

/-- C4 counterexample: with no slice filter configured
(`slice_filter_fn=None`, the constructor default), promoting a known,
not-yet-resident contrast marks it resident but replaces nothing: the
row still holds its path string afterwards, so the operation does not
replace each row's path-string cell with the loaded array. -/
theorem load_into_ram_counterexample :
    load_into_ram false stC4 ["T1"] =
      { known := ["T1"], resident := ["T1"], rows := [rowC4] }
    ∧ getCell rowC4 "T1" = some (HCell.pathStr "sub-01/inputs/T1") := by
  decide

/-- C4 (amended): when a slice filter is configured
(`self.filter_slices` truthy), promoting a known, not-yet-resident
contrast replaces each row's path-string cell for that contrast with the
array read from the container at the row's slice selector and marks the
contrast resident; without a slice filter the contrast is marked
resident but the cells are left as path strings.  Re-invocation on an
already-resident contrast is a no-op that does not alter stored rows. -/
theorem load_into_ram_amended :
    (∀ (st : AccessState) (ct : String) (i : Nat) (r : ARow) (p : String),
        ct ∈ st.known → ct ∉ st.resident → st.rows[i]? = some r →
        getCell r ct = some (HCell.pathStr p) →
        ct ∈ (load_into_ram true st [ct]).resident ∧
        ∃ r', (load_into_ram true st [ct]).rows[i]? = some r' ∧
          getCell r' ct = some (HCell.arr (p, r.slices)))
    ∧ (∀ (st : AccessState) (ct : String) (fs : Bool), ct ∈ st.resident →
        load_into_ram fs st [ct] = st) := by
  constructor
  · intro st ct i r p hk hres hrow hcell
    have hload : load_into_ram true st [ct] = loadContrast true st ct := rfl
    rw [hload]
    have hknown : ¬ ct ∉ st.known := not_not_intro hk
    constructor
    · simp [loadContrast, hknown, hres]
    · refine ⟨setCell r ct (h5Read (HCell.pathStr p) r.slices), ?_, ?_⟩
      · simp only [loadContrast, hknown, if_false, if_neg hres, if_true, ite_true]
        simp only [List.getElem?_map, hrow, Option.map_some, hres]
        simp [hcell]
      · simp only [h5Read]
        exact lookup_map_set r.cells ct (HCell.arr (p, r.slices)) (HCell.pathStr p) hcell
  · intro st ct fs hres
    by_cases hk : ct ∈ st.known
    · have hknown : ¬ ct ∉ st.known := not_not_intro hk
      simp [load_into_ram, loadContrast, hknown, hres]
    · simp [load_into_ram, loadContrast, hk]

theorem load_into_ram_amended_witness :
    ("T1" ∈ (load_into_ram true stC4w ["T1"]).resident ∧
      ∃ r', (load_into_ram true stC4w ["T1"]).rows[0]? = some r' ∧
        getCell r' "T1" =
          some (HCell.arr ("sub-02/inputs/T1", [0, 2]))) :=
  load_into_ram_amended.1 stC4w "T1" 0
    { slices := [0, 2], cells := [("T1", HCell.pathStr "sub-02/inputs/T1")] }
    "sub-02/inputs/T1" (by decide) (by decide) (by decide) (by decide)

/-- C5 counterexample: two successive writes of the same contrast token
(the first creating the attribute, the second appending to it) leave the
token twice in the contrast list — both the group-level and the
namespace-level write paths append without checking membership, so the
token does not appear at most once. -/
theorem contrast_attr_duplicate_counterexample :
    (add_grp_contrast (some (add_grp_contrast none "T1")) "T1").count "T1" = 2
    ∧ (create_subgrp_metadata (some (create_subgrp_metadata none "T1")) "T1").count "T1" = 2
    ∧ ¬ ((add_grp_contrast (some (add_grp_contrast none "T1")) "T1").count "T1" ≤ 1) := by
  decide

/-- C5 (amended): the contrast-list write paths perform no
check-before-append: each completed write appends exactly one occurrence
of the written token (on both the namespace-level and group-level
attributes) and leaves every other token's occurrence count unchanged,
so after n writes of the same token it appears n times, not at most
once. -/
theorem contrast_attr_append_no_dedup :
    ∀ (a : List String) (ct tok : String),
      (create_subgrp_metadata (some a) ct).count tok =
          a.count tok + (if tok = ct then 1 else 0)
      ∧ (add_grp_contrast (some a) ct).count tok =
          a.count tok + (if tok = ct then 1 else 0)
      ∧ create_subgrp_metadata none ct = [ct]
      ∧ add_grp_contrast none ct = [ct] := by
  intro a ct tok
  refine ⟨?_, ?_, rfl, rfl⟩ <;>
    by_cases hx : tok = ct <;>
      simp [create_subgrp_metadata, add_grp_contrast, List.count_append,
        List.count_cons, List.count_nil, beq_iff_eq, hx]

/-- C6: `HDF5Dataset.__init__` checks whether a file already exists at
the configured container path before deriving anything: when it exists,
the converter is not run, the container content is unchanged, and the
container is opened read-only. -/
theorem converter_skip_when_container_present :
    ∀ (c convOutput : List String),
      hdf5_dataset_get_container (some c) convOutput = (some c, false, H5Mode.read) := by
  intro c convOutput; rfl

theorem accumulateVolume_all_none :
    ∀ l : List (Option Nat), (∀ x ∈ l, x = none) → accumulateVolume l = [] := by
  intro l
  induction l with
  | nil => intro _; rfl
  | cons a rest ih =>
      intro h
      cases a with
      | none => exact ih (fun x hx => h x (List.mem_cons_of_mem _ hx))
      | some g => exact absurd (h (some g) (List.mem_cons_self _ _)) (by simp)

theorem accumulateVolume_all_some :
    ∀ l : List (Option Nat), (∀ x ∈ l, x ≠ none) →
      (accumulateVolume l).length = l.length := by
  intro l
  induction l with
  | nil => intro _; rfl
  | cons a rest ih =>
      intro h
      cases a with
      | none => exact absurd rfl (h none (List.mem_cons_self _ _))
      | some g =>
          simp only [accumulateVolume, List.length_cons]
          rw [ih (fun x hx => h x (List.mem_cons_of_mem _ hx))]

/-- C7: with per-subject gt/roi availability (the transform-stage output
for a subject's gt — resp. roi — is empty for every slice or for none:
modelled from the spec, whose Converter slices a per-contrast
"gt-or-empty"/"roi-or-empty" volume; `SegmentationPair` itself is
outside this file), the caller's accumulator at dataset-write time is
either complete (one entry per slice) or exactly the empty list, never a
partial prefix; and for any subject with a nonempty input accumulator
the `gt/<c>` and `roi/<c>` datasets are always created and hold exactly
the accumulator — a missing gt or roi becomes a present zero-length
dataset, never an absent one. -/
theorem gt_roi_accumulator_complete_or_empty (gtS roiS : List (Option Nat))
    (contrast : String) (inputVol : List Nat) (grp : List (String × List Nat))
    (hgt : (∀ x ∈ gtS, x = none) ∨ (∀ x ∈ gtS, x ≠ none))
    (hroi : (∀ x ∈ roiS, x = none) ∨ (∀ x ∈ roiS, x ≠ none))
    (hinput : 1 ≤ inputVol.length) :
    (accumulateVolume gtS = [] ∨ (accumulateVolume gtS).length = gtS.length)
    ∧ (accumulateVolume roiS = [] ∨ (accumulateVolume roiS).length = roiS.length)
    ∧ ("gt/" ++ contrast, accumulateVolume gtS) ∈
        writeSubjectDatasets contrast inputVol (accumulateVolume gtS) (accumulateVolume roiS) grp
    ∧ ("roi/" ++ contrast, accumulateVolume roiS) ∈
        writeSubjectDatasets contrast inputVol (accumulateVolume gtS) (accumulateVolume roiS) grp := by
  have hwrite : writeSubjectDatasets contrast inputVol (accumulateVolume gtS)
      (accumulateVolume roiS) grp =
      grp ++ [("inputs/" ++ contrast, inputVol),
              ("gt/" ++ contrast, accumulateVolume gtS),
              ("roi/" ++ contrast, accumulateVolume roiS)] := by
    unfold writeSubjectDatasets
    rw [if_neg (by omega)]
  refine ⟨?_, ?_, ?_, ?_⟩
  · rcases hgt with h | h
    · exact Or.inl (accumulateVolume_all_none gtS h)
    · exact Or.inr (accumulateVolume_all_some gtS h)
  · rcases hroi with h | h
    · exact Or.inl (accumulateVolume_all_none roiS h)
    · exact Or.inr (accumulateVolume_all_some roiS h)
  · rw [hwrite]; simp
  · rw [hwrite]; simp

theorem gt_roi_accumulator_witness :
    ((accumulateVolume [none, none] = []
        ∨ (accumulateVolume [none, none]).length = ([none, none] : List (Option Nat)).length)
    ∧ (accumulateVolume [some 5] = []
        ∨ (accumulateVolume [some 5]).length = ([some 5] : List (Option Nat)).length)
    ∧ ("gt/" ++ "T1", accumulateVolume [none, none]) ∈
        writeSubjectDatasets "T1" [7] (accumulateVolume [none, none]) (accumulateVolume [some 5]) []
    ∧ ("roi/" ++ "T1", accumulateVolume [some 5]) ∈
        writeSubjectDatasets "T1" [7] (accumulateVolume [none, none]) (accumulateVolume [some 5]) []) :=
  gt_roi_accumulator_complete_or_empty [none, none] [some 5] "T1" [7] []
    (by decide) (by decide) (by decide)

theorem flatMapL_append (f : α → List β) :
    ∀ l1 l2 : List α, flatMapL f (l1 ++ l2) = flatMapL f l1 ++ flatMapL f l2 := by
  intro l1 l2
  induction l1 with
  | nil => rfl
  | cons a as ih => simp [flatMapL, ih, List.append_assoc]

/-- C8: the exporter raises the fatal directory error before the subject
loop when the output root does not exist — the error outcome carries no
written file — and a subject that is absent from the container is
skipped: deleting it from the subject list leaves the export output
unchanged, so a partial subject list never aborts the export of the
remaining subjects. -/
theorem hdf5_to_bids_error_policy :
    (∀ (container : List (String × SubjGroup)) (subjects : List String) (pathDir : String),
        HDF5ToBIDS container subjects pathDir false =
          Except.error ("Directory " ++ pathDir ++ " doesn't exist. Stopping process."))
    ∧ (∀ (container : List (String × SubjGroup)) (pre post : List String)
        (sub pathDir : String), container.lookup sub = none →
        HDF5ToBIDS container (pre ++ sub :: post) pathDir true =
          HDF5ToBIDS container (pre ++ post) pathDir true) := by
  constructor
  · intro container subjects pathDir; rfl
  · intro container pre post sub pathDir hnone
    simp only [HDF5ToBIDS, not_true, if_false, Except.ok.injEq]
    rw [flatMapL_append, flatMapL_append]
    have : flatMapL (fun sub => match container.lookup sub with
        | none => []
        | some g => exportSubject pathDir sub g) (sub :: post) =
        flatMapL (fun sub => match container.lookup sub with
        | none => []
        | some g => exportSubject pathDir sub g) post := by
      simp [flatMapL, hnone]
    rw [this]

theorem hdf5_to_bids_skip_witness :
    HDF5ToBIDS containerW ["sub-99", "sub-01"] "out" true =
      HDF5ToBIDS containerW ["sub-01"] "out" true :=
  hdf5_to_bids_error_policy.2 containerW [] ["sub-01"] "sub-99" "out" (by decide)
